import Mathlib

/-!
Verification development for the Local_LLM GPT trainer.

Shallow embedding of the training/search core of `Auto_Tune.py` and
`GPT_Trainer-subword.py`: batch sampling (`get_random_chunk`, `get_batch`),
the best-result record of the hyperparameter search, the plateau counter of
the subword trainer, the loss estimator's train/eval mode toggle, the
structure of one optimization step, and the character vocabulary's
`encode`/`decode` pair.  Token ids are modelled as `ℕ`, loss values as `ℚ`,
Python's `float('inf')` initial best as `Option ℚ` with `none` standing for
`+∞`, and Python exceptions as an explicit `Except` result.
-/

namespace LocalLLM

/-- Python exception kinds raised on the code paths modelled here.
`valueError` is Python's `ValueError` (raised explicitly by the subword
`get_batch`, and by `random.randint` on an empty range), `runtimeError` is
the `RuntimeError` raised by `torch.randint` on an empty range, and
`typeError` is the `TypeError` raised by subscripting `None`.
`noResultError` is the clear error the specification's taxonomy demands for
an empty search result; the code itself never raises it. -/
inductive PyError where
  | valueError
  | runtimeError
  | typeError
  | noResultError
deriving DecidableEq

/-- Python list/tensor slice `data[start : start + len]`. -/
def pySlice (data : List ℕ) (start len : ℕ) : List ℕ :=
  (data.drop start).take len

/-- Row `i` of the `x` batch tensor: `data[i : i + block_size]`
(`x = torch.stack([data[i:i + block_size] for i in ix])`). -/
def inputsRow (data : List ℕ) (blockSize i : ℕ) : List ℕ :=
  pySlice data i blockSize

/-- Row `i` of the `y` batch tensor: `data[i + 1 : i + block_size + 1]`
(`y = torch.stack([data[i + 1:i + block_size + 1] for i in ix])`). -/
def targetsRow (data : List ℕ) (blockSize i : ℕ) : List ℕ :=
  pySlice data (i + 1) blockSize

lemma pySlice_getD (data : List ℕ) (s n t : ℕ) (ht : t < n)
    (_hd : s + t < data.length) :
    (pySlice data s n).getD t 0 = data.getD (s + t) 0 := by
  unfold pySlice
  rw [List.getD_eq_getElem?_getD, List.getD_eq_getElem?_getD,
    List.getElem?_take_of_lt ht, List.getElem?_drop]

/-- C1: each batch row satisfies the next-token shift invariant: for all
`t < block_size - 1`, `targets[i][t] = inputs[i][t+1]`, and the final target
element `targets[i][block_size-1]` is the corpus token at the position
immediately following the input window, `data[i + block_size]`.  The
hypothesis `i + blockSize < data.length` is exactly the bound guaranteed by
`torch.randint(len(data) - block_size, ...)` in both trainers. -/
theorem get_batch_target_shift (blockSize : ℕ) (data : List ℕ) (i : ℕ)
    (hb : 0 < blockSize) (h : i + blockSize < data.length) :
    (∀ t, t + 1 < blockSize →
      (targetsRow data blockSize i).getD t 0 =
        (inputsRow data blockSize i).getD (t + 1) 0) ∧
    (targetsRow data blockSize i).getD (blockSize - 1) 0 =
      data.getD (i + blockSize) 0 := by
  constructor
  · intro t ht
    unfold targetsRow inputsRow
    rw [pySlice_getD data (i + 1) blockSize t (by omega) (by omega),
      pySlice_getD data i blockSize (t + 1) ht (by omega)]
    have he : i + 1 + t = i + (t + 1) := by omega
    rw [he]
  · unfold targetsRow
    rw [pySlice_getD data (i + 1) blockSize (blockSize - 1) (by omega)
      (by omega)]
    have he : i + 1 + (blockSize - 1) = i + blockSize := by omega
    rw [he]

/-- Concrete instance of `get_batch_target_shift` with `block_size = 2`,
`data = [10, 20, 30, 40]`, `i = 1`. -/
theorem get_batch_target_shift_witness :
    (∀ t, t + 1 < 2 →
      (targetsRow [10, 20, 30, 40] 2 1).getD t 0 =
        (inputsRow [10, 20, 30, 40] 2 1).getD (t + 1) 0) ∧
    (targetsRow [10, 20, 30, 40] 2 1).getD (2 - 1) 0 =
      List.getD [10, 20, 30, 40] (1 + 2) 0 :=
  get_batch_target_shift 2 [10, 20, 30, 40] 1 (by decide) (by decide)

/-- One evaluation observation of the search loop: the configuration under
evaluation (abstracted to an id) and the validation loss it produced. -/
structure EvalObs where
  cfg : ℕ
  val : ℚ
deriving DecidableEq

/-- The best-result record of the hyperparameter search:
`best_val_loss` (initially `float('inf')`, modelled as `none`),
`best_hyperparams`, and the fixed-slot best-model checkpoint
(`torch.save(model.state_dict(), "best_model.pt")`, abstracted to the id of
the configuration whose model was saved). -/
structure BestRecord where
  best_val_loss : Option ℚ
  best_hyperparams : Option ℕ
  checkpoint : Option ℕ
deriving DecidableEq

/-- The improvement test `val_loss < best_val_loss`, where `none` stands for
the initial `float('inf')`. -/
def isImprovement (v : ℚ) : Option ℚ → Bool
  | none => true
  | some b => decide (v < b)

/-- One pass of the body `if val_loss < best_val_loss: best_val_loss = ...;
best_hyperparams = ...; torch.save(...)` of `hyperparameter_search`
(`train_model` in the subword trainer has the same structure). -/
def recordStep (r : BestRecord) (o : EvalObs) : BestRecord :=
  if isImprovement o.val r.best_val_loss then ⟨some o.val, some o.cfg, some o.cfg⟩
  else r

/-- The best-result record after processing a sequence of evaluation
observations, starting from the initial record
(`best_val_loss = float('inf')`, `best_hyperparams = None`, no checkpoint). -/
def runRecord (obs : List EvalObs) : BestRecord :=
  obs.foldl recordStep ⟨none, none, none⟩

/-- The running best validation loss, viewed on its own. -/
def bestAfter (b : Option ℚ) : List ℚ → Option ℚ
  | [] => b
  | v :: rest => bestAfter (if isImprovement v b then some v else b) rest

/-- Order on best-loss values with `none` as `+∞`. -/
def optLE : Option ℚ → Option ℚ → Bool
  | _, none => true
  | none, some _ => false
  | some a, some b => decide (a ≤ b)

lemma foldl_recordStep_best (obs : List EvalObs) (r : BestRecord) :
    (obs.foldl recordStep r).best_val_loss =
      bestAfter r.best_val_loss (obs.map EvalObs.val) := by
  induction obs generalizing r with
  | nil => rfl
  | cons o rest ih =>
    simp only [List.foldl_cons, List.map_cons, bestAfter, ih, recordStep]
    by_cases h : isImprovement o.val r.best_val_loss
    · simp [h]
    · simp [h]

lemma isImprovement_bestAfter (p : List ℚ) (b : Option ℚ) (v : ℚ) :
    isImprovement v (bestAfter b p) = true ↔
      (isImprovement v b = true ∧ ∀ u ∈ p, v < u) := by
  induction p generalizing b with
  | nil => simp [bestAfter]
  | cons u rest ih =>
    simp only [bestAfter, List.mem_cons, ih]
    constructor
    · rintro ⟨h1, h2⟩
      by_cases hu : isImprovement u b
      · simp only [hu, if_true] at h1
        have hvu : v < u := by
          simpa [isImprovement] using h1
        refine ⟨?_, fun w hw => ?_⟩
        · cases b with
          | none => rfl
          | some m =>
            have hum : u < m := by simpa [isImprovement] using hu
            simp only [isImprovement, decide_eq_true_eq]
            exact hvu.trans hum
        · rcases hw with rfl | hw
          · exact hvu
          · exact h2 w hw
      · simp only [hu, if_false] at h1
        cases b with
        | none => simp [isImprovement] at hu
        | some m =>
          have hmu : m ≤ u := by
            have := hu
            simp only [isImprovement, decide_eq_true_eq] at this
            exact le_of_not_lt this
          have hvm : v < m := by simpa [isImprovement] using h1
          refine ⟨by simpa [isImprovement] using hvm, fun w hw => ?_⟩
          rcases hw with rfl | hw
          · exact hvm.trans_le hmu
          · exact h2 w hw
    · rintro ⟨h1, h2⟩
      refine ⟨?_, fun w hw => h2 w (Or.inr hw)⟩
      by_cases hu : isImprovement u b
      · simp only [hu, if_true]
        simpa [isImprovement] using h2 u (Or.inl rfl)
      · simpa [hu] using h1

lemma optLE_refl (a : Option ℚ) : optLE a a = true := by
  cases a with
  | none => rfl
  | some x => simp [optLE]

lemma optLE_trans {a b c : Option ℚ} (h1 : optLE a b = true)
    (h2 : optLE b c = true) : optLE a c = true := by
  cases c with
  | none => cases a <;> rfl
  | some z =>
    cases b with
    | none => simp [optLE] at h2
    | some y =>
      cases a with
      | none => simp [optLE] at h1
      | some x =>
        simp only [optLE, decide_eq_true_eq] at h1 h2 ⊢
        exact h1.trans h2

lemma recordStep_optLE (r : BestRecord) (o : EvalObs) :
    optLE (recordStep r o).best_val_loss r.best_val_loss = true := by
  unfold recordStep
  by_cases h : isImprovement o.val r.best_val_loss
  · simp only [h, if_true]
    cases hb : r.best_val_loss with
    | none => rfl
    | some m =>
      have : o.val < m := by
        rw [hb] at h; simpa [isImprovement] using h
      simp [optLE, le_of_lt this]
  · simp [h, optLE_refl]

lemma foldl_recordStep_optLE (obs : List EvalObs) (r : BestRecord) :
    optLE (obs.foldl recordStep r).best_val_loss r.best_val_loss = true := by
  induction obs generalizing r with
  | nil => exact optLE_refl _
  | cons o rest ih =>
    exact optLE_trans (ih (recordStep r o)) (recordStep_optLE r o)

/-- C2: over the whole search, the best-result record's validation loss is
monotonically non-increasing along prefixes of the observation sequence, and
the record (loss, configuration, saved checkpoint) is overwritten at step `k`
exactly when the newly computed validation loss is strictly lower than every
validation loss previously observed across all configurations; otherwise the
whole record is left unchanged. -/
theorem hyperparameter_search_best_record (obs : List EvalObs) :
    (∀ i j : ℕ, i ≤ j →
      optLE (runRecord (obs.take j)).best_val_loss
        (runRecord (obs.take i)).best_val_loss = true) ∧
    (∀ k, k < obs.length →
      ((∀ u ∈ (obs.take k).map EvalObs.val, (obs.getD k ⟨0, 0⟩).val < u) →
        runRecord (obs.take (k + 1)) =
          ⟨some (obs.getD k ⟨0, 0⟩).val, some (obs.getD k ⟨0, 0⟩).cfg,
            some (obs.getD k ⟨0, 0⟩).cfg⟩) ∧
      ((¬ ∀ u ∈ (obs.take k).map EvalObs.val, (obs.getD k ⟨0, 0⟩).val < u) →
        runRecord (obs.take (k + 1)) = runRecord (obs.take k))) := by
  constructor
  · intro i j hij
    have hj : j = i + (j - i) := by omega
    rw [hj, List.take_add]
    unfold runRecord
    rw [List.foldl_append]
    exact foldl_recordStep_optLE _ _
  · intro k hk
    have hget : obs[k]? = some (obs.getD k ⟨0, 0⟩) := by
      rw [List.getD_eq_getElem?_getD, List.getElem?_eq_getElem hk]
      rfl
    have hsplit : obs.take (k + 1) = obs.take k ++ [obs.getD k ⟨0, 0⟩] := by
      rw [List.take_succ, hget]
      rfl
    have hrun : runRecord (obs.take (k + 1)) =
        recordStep (runRecord (obs.take k)) (obs.getD k ⟨0, 0⟩) := by
      rw [hsplit]; unfold runRecord; rw [List.foldl_append]; rfl
    have himp : isImprovement (obs.getD k ⟨0, 0⟩).val
        (runRecord (obs.take k)).best_val_loss = true ↔
        ∀ u ∈ (obs.take k).map EvalObs.val, (obs.getD k ⟨0, 0⟩).val < u := by
      unfold runRecord
      rw [foldl_recordStep_best]
      rw [isImprovement_bestAfter]
      simp [isImprovement]
    constructor
    · intro hall
      rw [hrun]
      unfold recordStep
      rw [if_pos (himp.mpr hall)]
    · intro hnot
      rw [hrun]
      unfold recordStep
      rw [if_neg]
      intro hcontra
      exact hnot (himp.mp hcontra)

/-- Concrete instance of `hyperparameter_search_best_record` on the
observation sequence `[(cfg 1, 5), (cfg 2, 7), (cfg 3, 3)]`: the best loss
after all three evaluations is at most the best loss after one, and the
second evaluation (loss 7, not below the previous 5) leaves the record
unchanged. -/
theorem hyperparameter_search_best_record_witness :
    optLE (runRecord (([⟨1, 5⟩, ⟨2, 7⟩, ⟨3, 3⟩] : List EvalObs).take 3)).best_val_loss
        (runRecord (([⟨1, 5⟩, ⟨2, 7⟩, ⟨3, 3⟩] : List EvalObs).take 1)).best_val_loss
        = true ∧
      runRecord (([⟨1, 5⟩, ⟨2, 7⟩, ⟨3, 3⟩] : List EvalObs).take 2) =
        runRecord (([⟨1, 5⟩, ⟨2, 7⟩, ⟨3, 3⟩] : List EvalObs).take 1) :=
  ⟨(hyperparameter_search_best_record [⟨1, 5⟩, ⟨2, 7⟩, ⟨3, 3⟩]).1 1 3
      (by decide),
    ((hyperparameter_search_best_record [⟨1, 5⟩, ⟨2, 7⟩, ⟨3, 3⟩]).2 1
      (by decide)).2 (by decide)⟩

/-- One evaluation of the subword trainer's plateau logic (lines 248-262 of
`GPT_Trainer-subword.py`): on improvement (`val_loss < best_val_loss`, the
global best) the counter is reset to 0; otherwise it is incremented, and the
"exhausted" signal (`plateau_count >= scheduler.patience`, which breaks out
of the configuration's remaining budget) fires iff the incremented counter
has reached `patience`.  Result: (new best, new counter, exhausted?). -/
def plateauStep (patience : ℕ) (best : Option ℚ) (count : ℕ) (v : ℚ) :
    Option ℚ × ℕ × Bool :=
  if isImprovement v best then (some v, 0, false)
  else (best, count + 1, decide (patience ≤ count + 1))

/-- The evaluation loop of one configuration, fed the sequence of validation
losses it produces: emits one Bool per evaluation reached (`true` = the
"exhausted" signal) and stops, abandoning the remaining losses, as soon as
the signal fires. -/
def plateauRun (patience : ℕ) (best : Option ℚ) (count : ℕ) :
    List ℚ → List Bool
  | [] => []
  | v :: rest =>
    if isImprovement v best then false :: plateauRun patience (some v) 0 rest
    else if patience ≤ count + 1 then [true]
    else false :: plateauRun patience best (count + 1) rest

lemma plateauRun_nonImproving (patience : ℕ) (b : ℚ) :
    ∀ (vals : List ℚ) (count : ℕ),
      (∀ v ∈ vals, ¬ v < b) → count < patience →
      patience ≤ count + vals.length →
      plateauRun patience (some b) count vals =
        List.replicate (patience - count - 1) false ++ [true] := by
  intro vals
  induction vals with
  | nil =>
    intro count hni hc hl
    simp only [List.length_nil, Nat.add_zero] at hl
    omega
  | cons v rest ih =>
    intro count hni hc hl
    have hv : isImprovement v (some b) = false := by
      simp only [isImprovement, decide_eq_false_iff_not]
      exact hni v (List.mem_cons_self v rest)
    by_cases hp : patience ≤ count + 1
    · have hz : patience - count - 1 = 0 := by omega
      simp [plateauRun, hv, hp, hz]
    · have hrec := ih (count + 1)
        (fun w hw => hni w (List.mem_cons_of_mem v hw)) (by omega)
        (by simp only [List.length_cons] at hl; omega)
      have hs : patience - count - 1 = (patience - (count + 1) - 1) + 1 := by
        omega
      simp only [plateauRun, hv, Bool.false_eq_true, if_false, hp, hrec, hs,
        List.replicate_succ, List.cons_append]

/-- C3: the plateau counter's transition rule — an evaluation with
improvement sets the counter to 0, one without improvement increments it by
1, and the "exhausted" signal fires iff the incremented counter has reached
`patience` — and, run on a strictly non-improving sequence of at least
`patience` validation losses starting from counter 0, the controller signals
"exhausted" exactly once, at the `patience`-th evaluation (the emitted
signal trace is `patience - 1` silent evaluations followed by one signal,
and the configuration's remaining budget is abandoned there). -/
theorem train_model_plateau_signal (patience : ℕ) (b : ℚ) (vals : List ℚ)
    (hp : 0 < patience) (hlen : patience ≤ vals.length)
    (hni : ∀ v ∈ vals, ¬ v < b) :
    (∀ (best : Option ℚ) (count : ℕ) (v : ℚ),
      isImprovement v best = true →
        (plateauStep patience best count v).2.1 = 0) ∧
    (∀ (best : Option ℚ) (count : ℕ) (v : ℚ),
      isImprovement v best = false →
        (plateauStep patience best count v).2.1 = count + 1) ∧
    (∀ (best : Option ℚ) (count : ℕ) (v : ℚ),
      (plateauStep patience best count v).2.2 = true ↔
        (isImprovement v best = false ∧ patience ≤ count + 1)) ∧
    plateauRun patience (some b) 0 vals =
      List.replicate (patience - 1) false ++ [true] := by
  refine ⟨?_, ?_, ?_, ?_⟩
  · intro best count v h
    simp [plateauStep, h]
  · intro best count v h
    simp [plateauStep, h]
  · intro best count v
    unfold plateauStep
    by_cases h : isImprovement v best
    · simp [h]
    · simp [h]
  · have := plateauRun_nonImproving patience b vals 0 hni hp
      (by omega)
    simpa using this

/-- Concrete instance of `train_model_plateau_signal`: `patience = 2`,
initial best 5, losses `[5, 6]` (neither strictly below 5): the signal trace
is `[false, true]`. -/
theorem train_model_plateau_signal_witness :
    plateauRun 2 (some 5) 0 [5, 6] = List.replicate (2 - 1) false ++ [true] :=
  (train_model_plateau_signal 2 5 [5, 6] (by decide) (by decide)
    (by decide)).2.2.2

/-- C10: the plateau counter is reset to 0 exactly when the current loss
strictly improves on the globally best loss (across all configurations and
learning rates), and a configuration whose validation losses strictly
improve on every evaluation but never go below the global best `b` still
increments the counter on every evaluation and is abandoned once the counter
reaches `patience`. -/
theorem train_model_plateau_global_reset (patience : ℕ) (b : ℚ)
    (vals : List ℚ) (hp : 0 < patience) (hlen : patience ≤ vals.length)
    (hchain : List.Chain' (fun x y => y < x) vals)
    (hge : ∀ v ∈ vals, b ≤ v) :
    (∀ (best : Option ℚ) (count : ℕ) (v : ℚ),
      (plateauStep patience best count v).2.1 = 0 ↔
        isImprovement v best = true) ∧
    plateauRun patience (some b) 0 vals =
      List.replicate (patience - 1) false ++ [true] := by
  constructor
  · intro best count v
    unfold plateauStep
    by_cases h : isImprovement v best
    · simp [h]
    · simp [h]
  · have := plateauRun_nonImproving patience b vals 0
      (fun v hv => not_lt_of_le (hge v hv)) hp (by omega)
    simpa using this

/-- Concrete instance of `train_model_plateau_global_reset`: `patience = 2`,
global best 1, per-configuration losses `[5, 4]` (strictly improving, never
below 1): the configuration is abandoned at the second evaluation. -/
theorem train_model_plateau_global_reset_witness :
    plateauRun 2 (some 1) 0 [5, 4] = List.replicate (2 - 1) false ++ [true] :=
  (train_model_plateau_global_reset 2 1 [5, 4] (by decide) (by decide)
    (by norm_num [List.chain'_cons, List.chain'_singleton]) (by decide)).2

/-- Python's `random.randint(lo, hi)`: uniform on the inclusive range
`[lo, hi]`, raising `ValueError` ("empty range") when `hi < lo`.  The draw
is made explicit through the seed `r`. -/
def randint (lo hi : ℤ) (r : ℕ) : Except PyError ℤ :=
  if hi < lo then .error .valueError
  else .ok (lo + (r : ℤ) % (hi - lo + 1))

/-- The start-offset selection of `get_random_chunk`:
`start_pos = random.randint(0, file_size - block_size * batch_size)`
(identical in both trainers). -/
def get_random_chunk_start (blockSize batchSize fileSize : ℕ) (r : ℕ) :
    Except PyError ℤ :=
  randint 0 ((fileSize : ℤ) - (blockSize : ℤ) * (batchSize : ℤ)) r

/-- C4: whenever `file_size ≥ block_size * batch_size`, the chosen start
offset lies in `[0, file_size - block_size * batch_size]` for every random
draw; whenever `file_size < block_size * batch_size`, the call fails (the
spec's `InsufficientDataError`, raised by `random.randint` on the empty
range as a `ValueError`). -/
theorem get_random_chunk_start_range (blockSize batchSize fileSize r : ℕ) :
    (blockSize * batchSize ≤ fileSize →
      ∃ p : ℤ, get_random_chunk_start blockSize batchSize fileSize r =
          .ok p ∧
        0 ≤ p ∧ p ≤ (fileSize : ℤ) - (blockSize : ℤ) * (batchSize : ℤ)) ∧
    (fileSize < blockSize * batchSize →
      get_random_chunk_start blockSize batchSize fileSize r =
        .error .valueError) := by
  constructor
  · intro h
    have hhi : (0 : ℤ) ≤ (fileSize : ℤ) - (blockSize : ℤ) * (batchSize : ℤ) := by
      have hc : ((blockSize * batchSize : ℕ) : ℤ) ≤ ((fileSize : ℕ) : ℤ) :=
        Int.ofNat_le.mpr h
      push_cast at hc
      omega
    refine ⟨(0 : ℤ) + (r : ℤ) %
      ((fileSize : ℤ) - (blockSize : ℤ) * (batchSize : ℤ) - 0 + 1), ?_, ?_, ?_⟩
    · unfold get_random_chunk_start randint
      rw [if_neg (by omega)]
    · have := Int.emod_nonneg (r : ℤ)
        (show ((fileSize : ℤ) - (blockSize : ℤ) * (batchSize : ℤ) - 0 + 1) ≠ 0
          by omega)
      omega
    · have := Int.emod_lt_of_pos (r : ℤ)
        (show (0 : ℤ) < (fileSize : ℤ) - (blockSize : ℤ) * (batchSize : ℤ) - 0 + 1
          by omega)
      omega
  · intro h
    unfold get_random_chunk_start randint
    rw [if_pos]
    have hc : ((fileSize : ℕ) : ℤ) < ((blockSize * batchSize : ℕ) : ℤ) :=
      Int.ofNat_lt.mpr h
    push_cast at hc
    omega

/-- Concrete instance of `get_random_chunk_start_range`: a corpus of 10000
tokens with `block_size = 128`, `batch_size = 64` yields an offset in
`[0, 10000 - 8192]`, and a corpus of 100 tokens fails. -/
theorem get_random_chunk_start_range_witness :
    (∃ p : ℤ, get_random_chunk_start 128 64 10000 12345 = .ok p ∧
      0 ≤ p ∧ p ≤ (10000 : ℤ) - (128 : ℤ) * (64 : ℤ)) ∧
    get_random_chunk_start 128 64 100 12345 = .error .valueError :=
  ⟨(get_random_chunk_start_range 128 64 10000 12345).1 (by decide),
    (get_random_chunk_start_range 128 64 100 12345).2 (by decide)⟩

/-- `get_batch` of `GPT_Trainer-subword.py`: raises
`ValueError("Data length is less than or equal to block_size, ...")` when
`len(data) <= block_size`, otherwise stacks the input/target rows at the
given start indices. -/
def get_batch_subword (blockSize : ℕ) (data : List ℕ) (ix : List ℕ) :
    Except PyError (List (List ℕ) × List (List ℕ)) :=
  if data.length ≤ blockSize then .error .valueError
  else .ok (ix.map (inputsRow data blockSize), ix.map (targetsRow data blockSize))

/-- `torch.randint(high, (batch_size,))`: raises a `RuntimeError` when the
range `[0, high)` is empty (`high ≤ 0`), otherwise draws `batch_size`
indices below `high`; the draws are made explicit through seeds `rs`. -/
def torchRandintVec (high : ℤ) (rs : List ℕ) : Except PyError (List ℕ) :=
  if high ≤ 0 then .error .runtimeError
  else .ok (rs.map (fun r => r % high.toNat))

/-- `get_batch` of `Auto_Tune.py`: no explicit length check —
`ix = torch.randint(len(data) - block_size, (batch_size,))` followed by
stacking the rows. -/
def get_batch_autoTune (blockSize : ℕ) (data : List ℕ) (rs : List ℕ) :
    Except PyError (List (List ℕ) × List (List ℕ)) :=
  match torchRandintVec ((data.length : ℤ) - (blockSize : ℤ)) rs with
  | .error e => .error e
  | .ok ix =>
    .ok (ix.map (inputsRow data blockSize), ix.map (targetsRow data blockSize))

/-- C5: whenever the sampled token sequence's length is not strictly greater
than `block_size`, batch assembly fails — the subword trainer raises its
explicit `ValueError` (the spec's `InsufficientDataError`), and the
`Auto_Tune` trainer fails inside `torch.randint` on the empty index range —
and in both cases the error propagates: no batch is returned. -/
theorem get_batch_insufficient_data (blockSize : ℕ) (data : List ℕ)
    (ix rs : List ℕ) (h : data.length ≤ blockSize) :
    get_batch_subword blockSize data ix = .error .valueError ∧
    get_batch_autoTune blockSize data rs = .error .runtimeError := by
  constructor
  · unfold get_batch_subword
    rw [if_pos h]
  · unfold get_batch_autoTune torchRandintVec
    have hc : ((data.length : ℕ) : ℤ) ≤ ((blockSize : ℕ) : ℤ) :=
      Int.ofNat_le.mpr h
    rw [if_pos (by omega)]

/-- Concrete instance of `get_batch_insufficient_data`: a 3-token sequence
with `block_size = 4` makes both `get_batch` variants fail. -/
theorem get_batch_insufficient_data_witness :
    get_batch_subword 4 [1, 2, 3] [0] = .error .valueError ∧
    get_batch_autoTune 4 [1, 2, 3] [0] = .error .runtimeError :=
  get_batch_insufficient_data 4 [1, 2, 3] [0] [0] (by decide)

/-- The model's dropout/grad-tracking mode: `model.train()` vs
`model.eval()`. -/
inductive Mode where
  | trainMode
  | evalMode
deriving DecidableEq

/-- The estimator's loop over `eval_iters` batch draws; each draw either
produces a loss value or raises (`get_batch` can raise, e.g. the spec's
`InsufficientDataError`).  The first raised exception aborts the loop and
propagates. -/
def collectLosses : List (Except PyError ℚ) → Except PyError (List ℚ)
  | [] => .ok []
  | .error e :: _ => .error e
  | .ok v :: rest =>
    match collectLosses rest with
    | .error e => .error e
    | .ok ls => .ok (v :: ls)

/-- Arithmetic mean, `losses.mean()`. -/
def listMean (l : List ℚ) : ℚ := l.sum / l.length

/-- `estimate_loss` of `Auto_Tune.py` (lines 172-184), with the model's
mode made explicit: `model.eval()` first, then the batch loop, then
`model.train()` — which is reached only on normal completion, since there
is no try/finally around the loop.  Returns the call's outcome and the
model's mode when the call exits. -/
def estimate_loss (draws : List (Except PyError ℚ)) :
    Except PyError ℚ × Mode :=
  match collectLosses draws with
  | .error e => (.error e, Mode.evalMode)
  | .ok ls => (.ok (listMean ls), Mode.trainMode)

/-- `evaluate_model` of `GPT_Trainer-subword.py` (lines 280-290):
`model.eval()` first, then the `torch.no_grad()` batch loop, then return —
the function contains no `model.train()` call at all, so the model is still
in inference mode when the call exits on every path, normal or exceptional
(training mode is re-established only by the separate `model.train()` at
the start of each epoch of `train_model`, line 226). -/
def evaluate_model (draws : List (Except PyError ℚ)) :
    Except PyError ℚ × Mode :=
  match collectLosses draws with
  | .error e => (.error e, Mode.evalMode)
  | .ok ls => (.ok (listMean ls), Mode.evalMode)

lemma collectLosses_ok_iff (draws : List (Except PyError ℚ)) :
    (∃ ls, collectLosses draws = .ok ls) ↔
      ∀ d ∈ draws, d.isOk = true := by
  induction draws with
  | nil => simp [collectLosses]
  | cons d rest ih =>
    cases d with
    | error e =>
      simp only [collectLosses, List.mem_cons]
      constructor
      · rintro ⟨ls, h⟩; cases h
      · intro h
        have := h (.error e) (Or.inl rfl)
        simp [Except.isOk, Except.toBool] at this
    | ok v =>
      simp only [collectLosses, List.mem_cons]
      constructor
      · rintro ⟨ls, h⟩
        intro w hw
        rcases hw with rfl | hw
        · rfl
        · rcases hls : collectLosses rest with e | ls'
          · rw [hls] at h; cases h
          · exact ih.mp ⟨ls', hls⟩ w hw
      · intro h
        rcases ih.mpr (fun w hw => h w (Or.inr hw)) with ⟨ls, hls⟩
        exact ⟨v :: ls, by rw [hls]⟩

/-- C6 counterexample: an execution of `Auto_Tune`'s `estimate_loss` in
which the single batch draw raises exits with the model still in inference
mode (the mode toggle is not exception-safe), and an execution of the
subword trainer's `evaluate_model` whose single batch draw completes
normally still exits with the model in inference mode (that estimator never
restores training mode at all). -/
theorem estimate_loss_not_exception_safe :
    (estimate_loss [Except.error PyError.valueError]).2 = Mode.evalMode ∧
    (evaluate_model [Except.ok (1 : ℚ)]).2 = Mode.evalMode ∧
    Mode.evalMode ≠ Mode.trainMode :=
  ⟨rfl, rfl, by decide⟩

/-- C6 amended: `Auto_Tune`'s `estimate_loss` switches the model to
inference mode and restores training mode exactly on the executions where
every batch draw and forward pass completes normally — there is no
try/finally, so if a draw raises, the exception propagates and the model is
left in inference mode when the call exits; the subword trainer's
`evaluate_model` never restores training mode within the call: on every
execution, normal or exceptional, the model is still in inference mode when
the call exits. -/
theorem estimate_loss_mode_restore (draws : List (Except PyError ℚ)) :
    ((∀ d ∈ draws, d.isOk = true) ↔
      (estimate_loss draws).2 = Mode.trainMode) ∧
    (∀ e, collectLosses draws = .error e →
      estimate_loss draws = (.error e, Mode.evalMode)) ∧
    (evaluate_model draws).2 = Mode.evalMode := by
  refine ⟨?_, ?_, ?_⟩
  · rw [← collectLosses_ok_iff]
    rcases h : collectLosses draws with e | ls
    · constructor
      · rintro ⟨ls, hls⟩
        cases hls
      · intro hc
        simp [estimate_loss, h] at hc
    · constructor
      · intro _
        simp [estimate_loss, h]
      · intro _
        exact ⟨ls, rfl⟩
  · intro e h
    unfold estimate_loss
    rw [h]
  · unfold evaluate_model
    rcases h : collectLosses draws with e | ls
    · rfl
    · rfl

/-- Concrete instance of `estimate_loss_mode_restore`: two successful draws
end with `estimate_loss` back in training mode; one raising draw exits with
the exception and the model in inference mode; and `evaluate_model` exits
in inference mode even on a successful draw. -/
theorem estimate_loss_mode_restore_witness :
    (estimate_loss [Except.ok (1 : ℚ), Except.ok 2]).2 = Mode.trainMode ∧
    estimate_loss [(Except.error PyError.valueError : Except PyError ℚ)] =
      (.error .valueError, Mode.evalMode) ∧
    (evaluate_model [Except.ok (1 : ℚ)]).2 = Mode.evalMode :=
  ⟨(estimate_loss_mode_restore [Except.ok (1 : ℚ), Except.ok 2]).1.mp
      (by decide),
    (estimate_loss_mode_restore
      [(Except.error PyError.valueError : Except PyError ℚ)]).2.1
      PyError.valueError rfl,
    (estimate_loss_mode_restore [Except.ok (1 : ℚ)]).2.2⟩

/-- The elementary operations of one training iteration, as they appear in
the source. -/
inductive TrainAction where
  | getBatch
  | forwardPass
  | zeroGrad
  | backwardPass
  | clipGradNorm (maxNorm : ℚ)
  | optimizerStep
  | scalerUpdate
  | schedulerStep
deriving DecidableEq

/-- Whether an action is a gradient-norm clip. -/
def isClip : TrainAction → Bool
  | .clipGradNorm _ => true
  | _ => false

/-- The body of one search-loop iteration of `Auto_Tune.py` (lines 231-241):
`get_batch`, forward under autocast, `zero_grad`, scaled backward,
`clip_grad_norm_(max_norm=1.0)`, `scaler.step(optimizer)`,
`scaler.update()`, `scheduler.step()`. -/
def autoTuneOptStep : List TrainAction :=
  [.getBatch, .forwardPass, .zeroGrad, .backwardPass, .clipGradNorm 1,
    .optimizerStep, .scalerUpdate, .schedulerStep]

/-- The body of one training iteration of `GPT_Trainer-subword.py`
(lines 230-238): `zero_grad`, `get_batch`, forward under autocast, scaled
backward, `scaler.step(optimizer)`, `scaler.update()` — no gradient
clipping anywhere. -/
def subwordOptStep : List TrainAction :=
  [.zeroGrad, .getBatch, .forwardPass, .backwardPass, .optimizerStep,
    .scalerUpdate]

/-- Squared Euclidean norm of a gradient vector. -/
def l2NormSq (g : List ℚ) : ℚ :=
  (g.map (fun x => x * x)).sum

/-- Modelled from the spec: `torch.nn.utils.clip_grad_norm_` (the external
tensor engine's clipping kernel, not part of this repository): with the
vector's total norm given, the clip coefficient is
`max_norm / (total_norm + 1e-6)` and the gradients are scaled by it when it
is below 1, otherwise left unchanged ("rescaling the gradient vector so its
norm does not exceed a fixed bound"). -/
def clip_grad_norm (g : List ℚ) (totalNorm maxNorm : ℚ) : List ℚ :=
  let clipCoef := maxNorm / (totalNorm + 1 / 1000000)
  if clipCoef < 1 then g.map (fun x => x * clipCoef) else g

/-- C7 counterexample: the subword trainer's optimization step contains no
gradient-clipping operation at all, and even the clipping that `Auto_Tune`
applies maps a gradient of exact norm 10 to one of squared norm
`(10^7/(10^7+1))^2 ≠ 1`, so the post-clip norm is not exactly 1.0. -/
theorem optimization_step_clip_counterexample :
    subwordOptStep.any isClip = false ∧
    l2NormSq (clip_grad_norm [6, 8] 10 1) ≠ 1 := by
  constructor
  · decide
  · norm_num [l2NormSq, clip_grad_norm]

/-- C7 amended: the `Auto_Tune` trainer applies gradient-norm clipping with
maximum norm 1.0 before the optimizer update in every optimization step,
while the subword trainer applies no gradient clipping; for the gradient
`[6, 8]` of norm 10.0 and `max_norm = 1.0`, clipping scales every component
by `10^6/(10^7+1)` — preserving direction — so the post-clip norm is
`10^7/(10^7+1)`, i.e. 1.0 only up to the `1e-6` tolerance in the clip
coefficient. -/
theorem optimization_step_clipping :
    autoTuneOptStep.indexOf (.clipGradNorm 1) <
      autoTuneOptStep.indexOf .optimizerStep ∧
    TrainAction.clipGradNorm 1 ∈ autoTuneOptStep ∧
    subwordOptStep.any isClip = false ∧
    clip_grad_norm [6, 8] 10 1 =
      ([6, 8] : List ℚ).map (fun x => x * (1000000 / 10000001)) ∧
    l2NormSq (clip_grad_norm [6, 8] 10 1) = (10000000 / 10000001) ^ 2 := by
  refine ⟨by decide, by decide, by decide, ?_, ?_⟩
  · norm_num [clip_grad_norm]
  · norm_num [l2NormSq, clip_grad_norm]

/-- The final report of the search
(`print(f"Best hyperparameters found: lr={best_hyperparams[0]}, ...")` in
`Auto_Tune.py`, `best_config[0]` in the subword trainer): subscripting the
record succeeds when it was recorded, and subscripting `None` raises
`TypeError`. -/
def finalReport (best : Option ℕ) : Except PyError ℕ :=
  match best with
  | none => .error .typeError
  | some c => .ok c

/-- The outcome of a completed search: run the best-result record over the
completed evaluations, then emit the final report. -/
def searchOutcome (obs : List EvalObs) : Except PyError ℕ :=
  finalReport (runRecord obs).best_hyperparams

/-- C8 counterexample: a search in which no configuration ever completes an
evaluation cycle ends by dereferencing the undefined (`None`) best-result
record, failing with a `TypeError` — not with the `NoResultError` the claim
states. -/
theorem hyperparameter_search_no_result_counterexample :
    searchOutcome [] = .error .typeError ∧
    (Except.error PyError.typeError : Except PyError ℕ) ≠
      .error .noResultError :=
  ⟨rfl, fun hcontra => absurd (Except.error.inj hcontra) (by decide)⟩

/-- C8 amended: if the search loop completes with no best result ever
recorded, the final report subscripts the undefined (`None`) best-result
record and fails with a `TypeError`; no `NoResultError` is raised anywhere
in the code. -/
theorem hyperparameter_search_no_result (obs : List EvalObs)
    (h : (runRecord obs).best_hyperparams = none) :
    searchOutcome obs = .error .typeError := by
  unfold searchOutcome
  rw [h]
  rfl

/-- Concrete instance of `hyperparameter_search_no_result`: the empty
evaluation sequence. -/
theorem hyperparameter_search_no_result_witness :
    searchOutcome [] = .error .typeError :=
  hyperparameter_search_no_result [] rfl

/-- Ascending insertion of a character into a sorted list (one step of
Python's `sorted`). -/
def insertSorted (c : Char) : List Char → List Char
  | [] => [c]
  | d :: rest => if c ≤ d then c :: d :: rest else d :: insertSorted c rest

/-- Python's `sorted`, as an executable insertion sort. -/
def sortChars : List Char → List Char
  | [] => []
  | c :: rest => insertSorted c (sortChars rest)

/-- `chars = sorted(list(set(text)))`: the sorted unique symbols of the
vocabulary file. -/
def buildChars (text : List Char) : List Char :=
  sortChars text.dedup

/-- `string_to_int = {ch: i for i, ch in enumerate(chars)}`: the id of a
vocabulary symbol is its position in `chars`. -/
def string_to_int (chars : List Char) (c : Char) : ℕ :=
  chars.indexOf c

/-- `int_to_string = {i: ch for i, ch in enumerate(chars)}`. -/
def int_to_string (chars : List Char) (i : ℕ) : Char :=
  chars.getD i 'a'

/-- `encode = lambda s: [string_to_int[c] for c in s]`. -/
def encode (chars : List Char) (s : List Char) : List ℕ :=
  s.map (string_to_int chars)

/-- `decode = lambda l: ''.join([int_to_string[i] for i in l])`. -/
def decode (chars : List Char) (l : List ℕ) : List Char :=
  l.map (int_to_string chars)

lemma int_to_string_string_to_int (chars : List Char) (c : Char)
    (hc : c ∈ chars) :
    int_to_string chars (string_to_int chars c) = c := by
  unfold int_to_string string_to_int
  have hlt : chars.indexOf c < chars.length := List.indexOf_lt_length.mpr hc
  rw [List.getD_eq_getElem?_getD, List.getElem?_eq_getElem hlt]
  exact List.getElem_indexOf hlt

lemma decode_encode (chars s : List Char) (h : ∀ c ∈ s, c ∈ chars) :
    decode chars (encode chars s) = s := by
  induction s with
  | nil => rfl
  | cons c rest ih =>
    have h1 := int_to_string_string_to_int chars c
      (h c (List.mem_cons_self c rest))
    have h2 := ih (fun w hw => h w (List.mem_cons_of_mem c hw))
    unfold decode encode at h2 ⊢
    simp only [List.map_cons]
    rw [h1, h2]

/-- C9: for every string composed only of vocabulary symbols,
`decode(encode(s)) = s`; and for the vocabulary built in sorted order from
the symbols a, b, c, `encode("abc") = [0, 1, 2]` and
`decode([0, 1, 2]) = "abc"`. -/
theorem encode_decode_roundtrip (text s : List Char)
    (h : ∀ c ∈ s, c ∈ buildChars text) :
    decode (buildChars text) (encode (buildChars text) s) = s ∧
    encode (buildChars ['c', 'a', 'b']) ['a', 'b', 'c'] = [0, 1, 2] ∧
    decode (buildChars ['c', 'a', 'b']) [0, 1, 2] = ['a', 'b', 'c'] :=
  ⟨decode_encode (buildChars text) s h, by decide, by decide⟩

/-- Concrete instance of `encode_decode_roundtrip` with vocabulary file
contents "cab" and the string "ba". -/
theorem encode_decode_roundtrip_witness :
    decode (buildChars ['c', 'a', 'b'])
        (encode (buildChars ['c', 'a', 'b']) ['b', 'a']) = ['b', 'a'] ∧
    encode (buildChars ['c', 'a', 'b']) ['a', 'b', 'c'] = [0, 1, 2] ∧
    decode (buildChars ['c', 'a', 'b']) [0, 1, 2] = ['a', 'b', 'c'] :=
  encode_decode_roundtrip ['c', 'a', 'b'] ['b', 'a'] (by decide)

end LocalLLM
